import Mathlib

set_option maxRecDepth 100000

/-!
Verification development for the VideoToVTT pipeline.

The definitions below are shallow embeddings of the JavaScript sources of
the repository (fast-processor.js, llm-translator.js,
individual-translation-processor.js and the unnamed parts, chiefly
part_003, the strict fast processor).  File-system and network effects are
made explicit: file stores are functions from language codes to optional
file contents, remote calls are oracles passed in as function arguments,
and the bounded worker pool is a small-step transition system.
-/

namespace VideoToVTT

/-! ## String utilities shared by the embedded code

JavaScript string operations used by the sources: substring containment
(String.prototype.includes), trimming, splitting on a newline, and the
numbering-stripping regex of the batch translator. -/

/-- Substring test on character lists: some suffix of the haystack starts
with the needle.  Models JavaScript includes (empty needle matches). -/
def listContainsSub (needle : List Char) : List Char → Bool
  | [] => needle.isEmpty
  | c :: cs => needle.isPrefixOf (c :: cs) || listContainsSub needle cs

/-- Substring test on strings, models s.includes(t). -/
def strContains (hay needle : String) : Bool :=
  listContainsSub needle.data hay.data

/-- Splitting a character list at every occurrence of a separator,
keeping empty groups, as JavaScript split does. -/
def splitOnChar (sep : Char) (cs : List Char) : List (List Char) :=
  cs.foldr
    (fun c acc =>
      if c = sep then [] :: acc
      else
        match acc with
        | [] => [[c]]
        | g :: gs => (c :: g) :: gs)
    [[]]

/-- Models s.split with a newline separator. -/
def splitLines (s : String) : List String :=
  (splitOnChar (Char.ofNat 10) s.data).map String.mk

/-- Models String.prototype.trim: strip whitespace from both ends. -/
def jsTrim (s : String) : String :=
  String.mk (((s.data.dropWhile Char.isWhitespace).reverse.dropWhile
    Char.isWhitespace).reverse)

/-- Models s.startsWith(pre). -/
def jsStartsWith (s pre : String) : Bool :=
  pre.data.isPrefixOf s.data

/-- Models s.toLowerCase() on the alphabet the sources use. -/
def jsToLower (s : String) : String :=
  String.mk (s.data.map Char.toLower)

/-- Models s.toUpperCase() on the alphabet the sources use. -/
def jsToUpper (s : String) : String :=
  String.mk (s.data.map Char.toUpper)

/-- Models s.length (the sources only meet characters of one code
unit). -/
def strLen (s : String) : Nat := s.data.length

/-- The UTF-8 byte count of one character. -/
def charUtf8Size (c : Char) : Nat :=
  if c.toNat < 128 then 1
  else if c.toNat < 2048 then 2
  else if c.toNat < 65536 then 3
  else 4

/-- The on-disk byte size of a file holding the string in UTF-8. -/
def utf8Len (s : String) : Nat :=
  (s.data.map charUtf8Size).sum

/-- Joining lines with newlines, as Array.prototype.join does. -/
def joinLines (ls : List String) : String :=
  String.mk (List.intercalate [Char.ofNat 10] (ls.map String.data))

/-- Models the regex replace of a leading decimal numbering:
digits followed by a dot and optional whitespace are removed,
anything else is left alone. -/
def stripNumbering (cs : List Char) : List Char :=
  match cs.dropWhile Char.isDigit with
  | '.' :: rest => if (cs.takeWhile Char.isDigit).isEmpty then cs else rest.dropWhile Char.isWhitespace
  | _ => cs

/-! ## LLMTranslator.translateText (src/llm-translator.js lines 76-106)

The remote call is abstracted as its outcome: ok with the returned text,
or error when the underlying API call throws.  The catch clause returns
the source text unchanged. -/

/-- Embeds translateText.  Empty (after trim) input short-circuits without
calling the API; an API error is caught and the original text returned. -/
def translateText (text : String) (apiResult : Except String String) : String :=
  if jsTrim text = "" then text
  else
    match apiResult with
    | .ok translated => translated
    | .error _ => text

/-! ## batchTranslateSubtitles, strict variant (src/unnamed/part_003 lines 320-376)

The raw service response is split on newlines, numbering is stripped,
lines are trimmed, empty lines dropped, and the list truncated to the
number of submitted subtitles.  A shortfall or an invalid entry raises. -/

/-- Response parsing of batchTranslateSubtitles: split, strip numbering,
trim, drop empties, keep at most n lines. -/
def parseTranslations (response : String) (n : Nat) : List String :=
  (((splitLines response).map
      (fun l => jsTrim (String.mk (stripNumbering l.data)))).filter
      (fun l => strLen l > 0)).take n

/-- Per-entry strict validation of part_003: placeholder tag for the
target language, verbatim copy, the words placeholder or translation,
or fewer than 3 characters all raise. -/
def invalidTranslation (targetUpper original translation : String) : Bool :=
  strContains translation ("[" ++ targetUpper ++ "]") ||
  translation == original ||
  strContains (jsToLower translation) "placeholder" ||
  strContains (jsToLower translation) "translation" ||
  decide (strLen translation < 3)

/-- Embeds the strict batchTranslateSubtitles of part_003.  The remote
response is passed in as the string the service returned.  A parsed count
below the submitted count is a hard error; so is any invalid entry. -/
def batchTranslateSubtitles (subtitles : List String) (targetUpper : String)
    (response : String) : Except String (List String) :=
  let translations := parseTranslations response subtitles.length
  if translations.length < subtitles.length then
    .error "Translation incomplete"
  else if (List.zip subtitles translations).any
      (fun p => invalidTranslation targetUpper p.1 p.2) then
    .error "Invalid translation detected"
  else
    .ok translations

/-- Embeds the lenient batchTranslateSubtitles of fast-processor.js
(lines 190-232): when the translator is unavailable or the request
fails after all retries (response none), every line becomes a tagged
placeholder; otherwise the parsed lines are padded with tagged
placeholders up to the submitted count.  No error is ever raised. -/
def batchTranslateSubtitlesLenient (subtitles : List String)
    (targetUpper : String) (response : Option String) : List String :=
  match response with
  | none => subtitles.map (fun s => "[" ++ targetUpper ++ "] " ++ s)
  | some r =>
    let ts := parseTranslations r subtitles.length
    ts ++ (subtitles.drop ts.length).map
      (fun s => "[" ++ targetUpper ++ "] " ++ s)

/-! ## translateVTTFast, strict variant (src/unnamed/part_003 lines 826-914)

The document is split on newlines; each line is trimmed and classified:
non-text (WEBVTT header, empty, timing cue containing an arrow, or a cue
setting) is carried through, text lines are collected into batches of
size B and sent to the batch translator; translations are re-interleaved
at the text positions. -/

/-- Classification of a trimmed line as non-text, from the skip branch of
the parsing loop of translateVTTFast. -/
def isNonTextLine (line : String) : Bool :=
  jsStartsWith line "WEBVTT" || line == "" || strContains line "-->" ||
  jsStartsWith line "align:" || jsStartsWith line "line:" ||
  jsStartsWith line "position:" || jsStartsWith line "size:" ||
  jsStartsWith line "vertical:"

/-- A document line after trimming and classification: inl carries a
non-text line through, inr marks a translatable text line. -/
def classifyLine (raw : String) : String ⊕ String :=
  let line := jsTrim raw
  if isNonTextLine line then .inl line else .inr line

/-- The ordered classified lines of a document. -/
def markLines (vttLines : List String) : List (String ⊕ String) :=
  vttLines.map classifyLine

/-- The ordered translatable text units of the classified lines. -/
def subtitleTexts (marked : List (String ⊕ String)) : List String :=
  marked.filterMap (fun m => match m with | .inl _ => none | .inr t => some t)

/-- Fuel-indexed batching; fuel at least the list length makes the result
the partition of the list into consecutive chunks of size B. -/
def chunkAux (B : Nat) : Nat → List String → List (List String)
  | 0, _ => []
  | _, [] => []
  | fuel + 1, l => l.take B :: chunkAux B fuel (l.drop B)

/-- Partition into consecutive batches of size B, as the indexed for
loop of translateVTTFast does with slice. -/
def chunkList (B : Nat) (l : List String) : List (List String) :=
  chunkAux B l.length l

/-- Sequentially runs the per-batch translator over the batches,
accumulating translations; the first error aborts the stage. -/
def runBatches (tr : List String → Except String (List String)) :
    List (List String) → Except String (List String)
  | [] => .ok []
  | b :: bs =>
    match tr b with
    | .error e => .error e
    | .ok ts =>
      match runBatches tr bs with
      | .error e => .error e
      | .ok rest => .ok (ts ++ rest)

/-- Re-interleaving: non-text lines stay, each text position takes the
next translation, mirroring the PLACEHOLDER replacement loop.  The final
case (translations exhausted) is unreachable in translateVTTFast, which
checks the counts match before re-interleaving. -/
def fillTranslations : List (String ⊕ String) → List String → List String
  | [], _ => []
  | .inl l :: ms, ts => l :: fillTranslations ms ts
  | .inr _ :: ms, t :: ts => t :: fillTranslations ms ts
  | .inr t :: ms, [] => t :: fillTranslations ms []

/-- Final placeholder scan of part_003 over the joined output. -/
def outputHasPlaceholder (joined : String) : Bool :=
  strContains joined "[AR]" || strContains joined "[EN]" ||
  strContains joined "[FR]" || strContains joined "[ES]" ||
  strContains joined "[IT]" || strContains joined "PLACEHOLDER"

/-- The line-level core of translateVTTFast of part_003, between the
initial split on newlines and the final join.  The per-batch translator
tr is passed in (in the source it is batchTranslateSubtitles over the
remote service); the result pairs the reconstructed line list with the
number of batch calls made on the successful path. -/
def translateVTTFastLines (tr : List String → Except String (List String))
    (B : Nat) (vttLines : List String) : Except String (List String × Nat) :=
  let marked := markLines vttLines
  let texts := subtitleTexts marked
  if texts.isEmpty then
    .error "No subtitle text found to translate in VTT content"
  else
    match runBatches tr (chunkList B texts) with
    | .error e => .error e
    | .ok translations =>
      if translations.length ≠ texts.length then
        .error "Translation count mismatch"
      else
        let out := fillTranslations marked translations
        if outputHasPlaceholder (joinLines out) then
          .error "Translation contains placeholder text - not a real translation"
        else
          .ok (out, (chunkList B texts).length)

/-- Embeds translateVTTFast of part_003: split the document, run the
core, join the reconstructed lines. -/
def translateVTTFast (tr : List String → Except String (List String))
    (B : Nat) (vttContent : String) : Except String (String × Nat) :=
  (translateVTTFastLines tr B (splitLines vttContent)).map
    (fun p => (joinLines p.1, p.2))

/-- translateVTTFast with its per-batch translator instantiated the way
part_003 does: each batch goes through the strict batchTranslateSubtitles
against the remote service respond. -/
def translateVTTFastStrict (respond : List String → String) (targetUpper : String)
    (B : Nat) (vttLines : List String) : Except String (List String × Nat) :=
  translateVTTFastLines
    (fun batch => batchTranslateSubtitles batch targetUpper (respond batch)) B vttLines

/-- The document content produced by the strict translation stage for
one target language, dropping the call counter. -/
def translateVTTFastStrictContent (respond : List String → String)
    (targetUpper : String) (B : Nat) (vttLines : List String) : Except String String :=
  (translateVTTFastStrict respond targetUpper B vttLines).map
    (fun p => joinLines p.1)

/-! ## verifyVideoProcessing (src/unnamed/part_003 lines 995-1068)

The output directory is modelled as a function from language code to the
optional content of the artifact file for that language; the on-disk
byte size of a file is the UTF-8 size of its content. -/

/-- The five pipeline languages. -/
def languages : List String := ["ar", "en", "fr", "es", "it"]

/-- The placeholder patterns scanned for by the verification gate. -/
def placeholderPatterns (lang : String) : List String :=
  ["[" ++ jsToUpper lang ++ "]",
   "[AR]", "[EN]", "[FR]", "[ES]", "[IT]",
   "PLACEHOLDER", "placeholder",
   "Translation failed", "translation failed"]

/-- Whether the content matches any placeholder pattern. -/
def hasPlaceholders (lang content : String) : Bool :=
  (placeholderPatterns lang).any (fun p => strContains content p)

/-- The on-disk size of a file content, in bytes. -/
def fileSize (content : String) : Nat := utf8Len content

/-- Whether the gate considers the file too small (below 100 bytes). -/
def isContentTooSmall (content : String) : Bool :=
  decide (fileSize content < 100)

/-- The candidate subtitle lines of the content: non-blank and free of
the WEBVTT marker and of timing arrows. -/
def subtitleLines (content : String) : List String :=
  (splitLines content).filter
    (fun line => jsTrim line ≠ "" && !strContains line "WEBVTT" && !strContains line "-->")

/-- Whether the content has at least one substantive subtitle line
(more than 10 characters after trimming). -/
def hasSubstantialContent (content : String) : Bool :=
  !(subtitleLines content).isEmpty &&
  (subtitleLines content).any (fun line => decide (strLen (jsTrim line) > 10))

/-- One language artifact passes the gate: the file exists and its
content raises none of the three issues (placeholder text, too small,
lacking substantial content) recorded by verifyVideoProcessing. -/
def artifactValid (lang : String) (file : Option String) : Bool :=
  match file with
  | none => false
  | some content =>
    !hasPlaceholders lang content && !isContentTooSmall content &&
    hasSubstantialContent content

/-- Embeds the local-file part of verifyVideoProcessing: true exactly
when no language contributes a missing or invalid issue.  The advisory
uploaded-caption check is modelled separately (it never changes the
returned value). -/
def verifyVideoProcessing (files : String → Option String) : Bool :=
  languages.all (fun lang => artifactValid lang (files lang))

/-- Embeds the local-file part of verifyVideoProcessing of
fast-processor.js (lines 759-798): that gate only requires each
per-language artifact file to exist; it reads no content, so it applies
no size, placeholder or substantive-text check.  (Its optional
uploaded-caption branch checks caption presence in the catalog, again
without inspecting content.) -/
def verifyVideoProcessingFast (files : String → Option String) : Bool :=
  languages.all (fun lang => (files lang).isSome)

/-! ## The skip path of processVideoFast (src/unnamed/part_003 lines 501-513)
and the advisory uploaded-caption check (lines 1062-1100)

Network traffic is made explicit as a list of call descriptors.  On the
skip path the only possible call is the catalog captions read issued by
verifyUploadedCaptions when caption upload is enabled. -/

/-- Network call descriptors of the calls the processor can issue. -/
inductive NetCall where
  | catalogGet
  | catalogDelete
  | catalogPost
  | assetDownload
  | translationRequest
  deriving DecidableEq, Repr

/-- Subprocess call descriptors. -/
inductive SubprocCall where
  | ffmpegRun
  | whisperRun
  deriving DecidableEq, Repr

/-- isVideoAlreadyProcessed: every language artifact file exists. -/
def isVideoAlreadyProcessed (files : String → Option String) : Bool :=
  languages.all (fun lang => (files lang).isSome)

/-- The network calls performed by verifyVideoProcessing: when caption
upload is enabled and the local files all verify, verifyUploadedCaptions
issues a catalog captions read (inside the retry wrapper, so at least
one request). -/
def verifyNetCalls (uploadCaptions : Bool) : List NetCall :=
  if uploadCaptions then [NetCall.catalogGet] else []

/-- Embeds the skip check at the head of each processVideoFast attempt:
some (netCalls, subprocCalls) when the item is skipped as already
processed and verified, none when the attempt proceeds to the stages. -/
def processVideoFastSkipCheck (skipExisting uploadCaptions : Bool)
    (files : String → Option String) : Option (List NetCall × List SubprocCall) :=
  if skipExisting && isVideoAlreadyProcessed files then
    if verifyVideoProcessing files then
      some (verifyNetCalls uploadCaptions, [])
    else
      none
  else
    none

/-! ## retryWithBackoff (src/unnamed/part_003 lines 943-992 and
src/fast-processor.js lines 707-756)

An error carries the data the classifier inspects: whether its message
matches one of the rate-limit substrings (429, rate limit, too many
requests), the HTTP status of the response if any, and an identifier so
distinct errors can be told apart.  The operation is an oracle indexed
by the number of invocations already made. -/

/-- The observable data of a thrown JavaScript error. -/
structure JsError where
  msgRateLimited : Bool
  status : Option Nat
  id : Nat
  deriving DecidableEq, Repr

/-- Rate-limit classification: message substring match or HTTP 429. -/
def isRateLimit (e : JsError) : Bool :=
  e.msgRateLimited || e.status == some 429

/-- Auth classification: HTTP 401. -/
def isAuthError (e : JsError) : Bool :=
  e.status == some 401

/-- Backoff delay in seconds before the attempt after attempt a, in
part_003: doubling from 4 s, capped at 60 s. -/
def waitTimeP3 (attempt : Nat) : Nat :=
  min (2 * 2 ^ attempt) 60

/-- Backoff delay in seconds in fast-processor.js: 30 s growing fourfold
per attempt, capped at 300 s. -/
def waitTimeFast (attempt : Nat) : Nat :=
  min (30 * 4 ^ (attempt - 1)) 300

/-- The outcome of a retryWithBackoff run. -/
inductive RetryResult (α : Type) where
  | success (a : α)
  | failure (e : JsError)
  | noAttempt
  deriving DecidableEq, Repr

/-- The observable trace of a retryWithBackoff run: its outcome, how
many times the operation was invoked, and the backoff delays slept. -/
structure RetryTrace (α : Type) where
  result : RetryResult α
  invocations : Nat
  waits : List Nat
  deriving DecidableEq, Repr

/-- The body of the retry for loop.  The fuel is the number of loop
iterations left (maxRetries - attempt + 1); both the auth branch and
the rate-limit branch continue the loop, which advances the attempt
counter.  When the fuel runs out the last error is rethrown. -/
def retryAux (wait : Nat → Nat) (captionOp : Bool) (maxRetries : Nat)
    (op : Nat → Except JsError α) :
    Nat → Nat → Nat → List Nat → Option JsError → RetryTrace α
  | 0, _, calls, ws, last =>
    ⟨match last with | some e => .failure e | none => .noAttempt, calls, ws⟩
  | fuel + 1, attempt, calls, ws, _last =>
    match op calls with
    | .ok a => ⟨.success a, calls + 1, ws⟩
    | .error e =>
      if isAuthError e && captionOp then
        retryAux wait captionOp maxRetries op fuel (attempt + 1) (calls + 1) ws (some e)
      else if isRateLimit e && decide (attempt < maxRetries) then
        retryAux wait captionOp maxRetries op fuel (attempt + 1) (calls + 1)
          (ws ++ [wait attempt]) (some e)
      else
        ⟨.failure e, calls + 1, ws⟩

/-- Embeds retryWithBackoff: attempts run from 1 to maxRetries; wait is
the backoff schedule (waitTimeP3 in part_003, waitTimeFast in
fast-processor.js); captionOp is whether the operation name contains
the word caption, which gates the re-authentication branch. -/
def retryWithBackoff (wait : Nat → Nat) (captionOp : Bool)
    (op : Nat → Except JsError α) (maxRetries : Nat) : RetryTrace α :=
  retryAux wait captionOp maxRetries op maxRetries 1 0 [] none

/-! ## Speech-to-text invocations (src/individual-translation-processor.js
lines 246-325 and src/unnamed/part_003 lines 659-695)

An invocation is its command line plus the timeout option passed to the
child-process call, if any.  The engine behavior is modelled by its
running time (none meaning it never finishes). -/

/-- A subprocess invocation descriptor. -/
structure SubprocessInvocation where
  command : String
  timeoutMs : Option Nat
  deriving DecidableEq, Repr

/-- The whisper timeout of individual-translation-processor.js, in
seconds (this.whisperTimeout = 1800). -/
def whisperTimeoutSecs : Nat := 1800

/-- The whisper invocation of processBatchWithWhisper: exec is given an
explicit timeout of whisperTimeout * 1000 milliseconds. -/
def individualWhisperInvocation (whisperPath modelPath audioPath vttPath : String) :
    SubprocessInvocation :=
  ⟨"\"" ++ whisperPath ++ "\" -m \"" ++ modelPath ++ "\" -f \"" ++ audioPath ++
    "\" -ovtt -of \"" ++ vttPath ++ "\"",
   some (whisperTimeoutSecs * 1000)⟩

/-- The whisper invocation of transcribeWithWhisper in part_003:
execAsync is called on the bare command string with no options, so no
timeout is set. -/
def part3WhisperInvocation (whisperPath modelPath audioPath lang outputPath : String) :
    SubprocessInvocation :=
  ⟨"\"" ++ whisperPath ++ "\" -m " ++ modelPath ++ " -f " ++ audioPath ++
    " --output-vtt --language " ++ lang ++ " -of " ++ outputPath,
   none⟩

/-- The outcome of running an external process with the invocation
options against an engine that takes runtimeMs milliseconds (none when
it hangs forever). -/
inductive ExecOutcome where
  | finished (exitOk : Bool)
  | timedOut
  | blocked
  deriving DecidableEq, Repr

/-- Semantics of the child-process call: with a timeout the call fails
once the runtime exceeds it; without one a hung engine blocks forever. -/
def runExec (inv : SubprocessInvocation) (runtimeMs : Option Nat)
    (exitOk : Bool) : ExecOutcome :=
  match inv.timeoutMs, runtimeMs with
  | some t, some r => if r ≤ t then .finished exitOk else .timedOut
  | some _, none => .timedOut
  | none, some _ => .finished exitOk
  | none, none => .blocked

/-- The per-item outcome recorded by processBatchWithWhisper: success
requires the exec call to finish cleanly and the generated file to exist
and contain the WEBVTT marker; a timeout rejection is caught and the
item recorded as failed. -/
def processBatchItemSuccess (inv : SubprocessInvocation)
    (runtimeMs : Option Nat) (exitOk : Bool) (vttFile : Option String) : Bool :=
  match runExec inv runtimeMs exitOk with
  | .finished true =>
    match vttFile with
    | some content => strContains content "WEBVTT"
    | none => false
  | _ => false

/-! ## processVideosConcurrently (src/unnamed/part_003 lines 379-491)

The pool keeps an array of K lanes; each lane processes one video at a
time, pushing it to results on success or to errors on failure, and
refills itself from the shared started counter until the queue is
exhausted.  The state below records the not-yet-started suffix of the
queue, the multiset of in-flight videos, and the two outcome lists; a
step is one lane finishing its video, in any order the external
latencies allow.  This system tracks item starts and finishes, which is
what the in-flight bound is about; the refined system further below
additionally tracks the promise structure, which determines where the
await of the function resolves. -/

/-- The observable state of the worker pool. -/
structure PoolState (α : Type) where
  queue : List α
  inflight : Multiset α
  results : List α
  errors : List α

/-- The state after the initial loop started the first
min (K, videos.length) lanes. -/
def startPool (K : Nat) (videos : List α) : PoolState α :=
  { queue := videos.drop K
    inflight := (videos.take K : List α)
    results := []
    errors := [] }

/-- The state after the lane processing v finishes: v moves to results
or errors according to the processing outcome, and the lane refills
itself with the next queued video if one remains. -/
def finishVideo [DecidableEq α] (ok : α → Bool) (s : PoolState α) (v : α) :
    PoolState α :=
  { queue := s.queue.tail
    inflight :=
      match s.queue with
      | [] => s.inflight.erase v
      | w :: _ => w ::ₘ s.inflight.erase v
    results := if ok v then s.results ++ [v] else s.results
    errors := if ok v then s.errors else s.errors ++ [v] }

/-- One scheduling step: some in-flight video finishes. -/
inductive PoolStep [DecidableEq α] (ok : α → Bool) :
    PoolState α → PoolState α → Prop
  | finish (s : PoolState α) (v : α) (hv : v ∈ s.inflight) :
      PoolStep ok s (finishVideo ok s v)

/-- The states reachable by the pool from the initial state, over every
interleaving of completions. -/
def PoolReachable [DecidableEq α] (ok : α → Bool) (K : Nat)
    (videos : List α) (s : PoolState α) : Prop :=
  Relation.ReflTransGen (PoolStep ok) (startPool K videos) s

/-- The pool invariant: the queue, the in-flight multiset and the two
outcome lists partition the submitted videos; outcomes match the item
oracle; a lane is busy whenever work remains queued; and in-flight
videos never exceed K. -/
def PoolInv (ok : α → Bool) (K : Nat) (videos : List α)
    (s : PoolState α) : Prop :=
  (s.queue : Multiset α) + s.inflight + (s.results : Multiset α) +
      (s.errors : Multiset α) = (videos : Multiset α) ∧
  (∀ v ∈ s.results, ok v = true) ∧
  (∀ v ∈ s.errors, ok v = false) ∧
  (s.queue ≠ [] → s.inflight ≠ 0) ∧
  Multiset.card s.inflight ≤ K

/-! ## The promise structure of processVideosConcurrently
(src/unnamed/part_003 lines 440-459, src/fast-processor.js lines 332-350)

The await at the end of processVideosConcurrently is Promise.all over
semaphore.filter, evaluated right after the initial loop, so it
captures only the min (K, n) initial lane promises.  When a lane
finishes its first item, its finally block stores the refill promise in
the semaphore without awaiting or returning it, and the initial promise
resolves.  The refined state below therefore tags each in-flight item
with whether it is carried by an initial lane promise: the function
returns once no tagged item remains in flight, regardless of the
untagged refill chains still running. -/

/-- The promise-aware state of the worker pool: each in-flight item is
paired with whether an initial lane promise carries it. -/
structure JsPoolState (α : Type) where
  queue : List α
  inflight : Multiset (α × Bool)
  results : List α
  errors : List α

/-- The refined state after the initial loop: the first min (K, n)
videos are in flight, each carried by an initial lane promise. -/
def startPoolJs (K : Nat) (videos : List α) : JsPoolState α :=
  { queue := videos.drop K
    inflight := ((videos.take K).map (fun v => (v, true)) : List (α × Bool))
    results := []
    errors := [] }

/-- One lane finishing the in-flight item p: the item lands in results
or errors according to the outcome, and the refill item from the queue
head, if any, enters flight carried by an unawaited promise. -/
def finishVideoJs [DecidableEq α] (ok : α → Bool) (s : JsPoolState α)
    (p : α × Bool) : JsPoolState α :=
  { queue := s.queue.tail
    inflight :=
      match s.queue with
      | [] => s.inflight.erase p
      | w :: _ => (w, false) ::ₘ s.inflight.erase p
    results := if ok p.1 then s.results ++ [p.1] else s.results
    errors := if ok p.1 then s.errors else s.errors ++ [p.1] }

/-- One scheduling step of the refined system: some in-flight item
finishes. -/
inductive JsPoolStep [DecidableEq α] (ok : α → Bool) :
    JsPoolState α → JsPoolState α → Prop
  | finish (s : JsPoolState α) (p : α × Bool) (hp : p ∈ s.inflight) :
      JsPoolStep ok s (finishVideoJs ok s p)

/-- The states reachable by the refined system from the initial state,
over every interleaving of completions. -/
def JsPoolReachable [DecidableEq α] (ok : α → Bool) (K : Nat)
    (videos : List α) (s : JsPoolState α) : Prop :=
  Relation.ReflTransGen (JsPoolStep ok) (startPoolJs K videos) s

/-- The point where the await in processVideosConcurrently resolves and
the function returns its aggregate: every initial lane promise has
resolved, that is, no in-flight item is tagged as initial. -/
def AllInitialResolved (s : JsPoolState α) : Prop :=
  ∀ p ∈ s.inflight, p.2 = false

instance (s : JsPoolState α) : Decidable (AllInitialResolved s) :=
  inferInstanceAs (Decidable (∀ p ∈ s.inflight, p.2 = false))

/-! ## One processVideoFast attempt and its retry loop
(src/unnamed/part_003 lines 497-590)

Within one attempt the original-language transcript is written, each
target language is translated with translateVTTFast (a per-language
error is caught, leaving that file unwritten), and the attempt succeeds
exactly when verifyVideoProcessing accepts the resulting file set.  The
surrounding while loop retries a failed attempt up to
maxProcessingRetries times with exponential backoff. -/

/-- The target languages of an item: every pipeline language except the
detected original. -/
def targetLanguages (origLang : String) : List String :=
  languages.filter (fun lang => lang ≠ origLang)

/-- The file store after one attempt wrote its outputs: the original
transcript at the original language, and for each target language the
translation when its stage succeeded; a failed target language leaves
whatever file was on disk before (the per-language catch swallows the
error). -/
def attemptFiles (files0 : String → Option String) (origLang origContent : String)
    (trOut : String → Except String String) : String → Option String :=
  fun lang =>
    if lang = origLang then some origContent
    else if lang ∈ targetLanguages origLang then
      match trOut lang with
      | .ok content => some content
      | .error _ => files0 lang
    else files0 lang

/-- Whether one attempt succeeds: the verification gate accepts the
file set the attempt produced. -/
def attemptSucceeds (files0 : String → Option String) (origLang origContent : String)
    (trOut : String → Except String String) : Bool :=
  verifyVideoProcessing (attemptFiles files0 origLang origContent trOut)

/-- The retry while loop of processVideoFast: attempts are numbered from
1; a failed attempt below the bound is retried, failure at the bound
rethrows.  Returns the number of the succeeding attempt, or none when
every attempt failed. -/
def processLoopAux (attemptOk : Nat → Bool) (maxAttempts : Nat) :
    Nat → Nat → Option Nat
  | 0, _ => none
  | fuel + 1, attempt =>
    if attemptOk attempt then some attempt
    else if attempt = maxAttempts then none
    else processLoopAux attemptOk maxAttempts fuel (attempt + 1)

/-- processVideoFast seen through its attempt outcomes: the source fixes
maxProcessingRetries = 3. -/
def processVideoFastLoop (attemptOk : Nat → Bool) : Option Nat :=
  processLoopAux attemptOk 3 3 1

/-! ## Concrete data for closed runs of the embedded code -/

/-- A well-formed subtitle artifact: over 100 bytes, substantive lines,
no placeholder pattern. -/
def sampleVtt : String :=
  "WEBVTT\n\n00:00:01.000 --> 00:00:04.000\nThe quick brown fox jumps over the lazy dog tonight\n\n00:00:05.000 --> 00:00:08.000\nEvery good sentence deserves a faithful rendering\n"

/-- An output directory holding a valid artifact for every language. -/
def sampleFiles : String → Option String := fun _ => some sampleVtt

/-- An output directory left over from an earlier partial run: a valid
Arabic artifact survives, every other language is missing. -/
def staleFiles : String → Option String :=
  fun lang => if lang = "ar" then some sampleVtt else none

/-- A small transcript document: header, one timing cue, one text line. -/
def staleDocLines : List String :=
  ["WEBVTT", "00:00:01.000 --> 00:00:02.000", "Hello there my friend"]

/-- Per-language translation outcomes where the Arabic stage runs the
real strict pipeline against a service that returns an empty response
(a count shortfall), and every other language succeeds. -/
def staleTrOut : String → Except String String :=
  fun lang =>
    if lang = "ar" then
      translateVTTFastStrictContent (fun _ => "") "AR" 15 staleDocLines
    else .ok sampleVtt

/-- Scenario A document: two non-text lines (header with a trailing
space, timing cue) and three text lines. -/
def scenarioDocLines : List String :=
  ["WEBVTT ", "00:00:01.000 --> 00:00:02.000", "Hello", "World", "Friend"]

/-- The artifact the lenient pipeline writes for the sample document
when the translation request fails: the lenient batch translator pads
every line with a tagged placeholder and the document is reconstructed
around them. -/
def lenientArVtt : String :=
  joinLines (fillTranslations (markLines staleDocLines)
    (batchTranslateSubtitlesLenient (subtitleTexts (markLines staleDocLines))
      "AR" none))

/-- An output directory holding such a placeholder artifact for every
language. -/
def lenientFiles : String → Option String := fun _ => some lenientArVtt

/-! ## Helper lemmas: the pool invariant is inductive -/

theorem poolInv_start [DecidableEq α] (ok : α → Bool) (videos : List α)
    {K : Nat} (hK : 1 ≤ K) : PoolInv ok K videos (startPool K videos) := by
  refine ⟨?_, by simp [startPool], by simp [startPool], ?_, ?_⟩
  · show ((videos.drop K : List α) : Multiset α) + (videos.take K : List α) +
        (([] : List α) : Multiset α) + (([] : List α) : Multiset α) = (videos : Multiset α)
    rw [Multiset.coe_nil, add_zero, add_zero, add_comm, Multiset.coe_add,
      List.take_append_drop]
  · intro hq
    simp only [startPool, ne_eq, Multiset.coe_eq_zero]
    intro htake
    have hlen : videos.length ≤ K := by
      have := congrArg List.length htake
      simp only [List.length_take, List.length_nil] at this
      omega
    exact hq (by simp [startPool, List.drop_eq_nil_of_le hlen])
  · show Multiset.card ((videos.take K : List α) : Multiset α) ≤ K
    rw [Multiset.coe_card, List.length_take]
    omega

theorem poolInv_step [DecidableEq α] {ok : α → Bool} {K : Nat}
    {videos : List α} {s s' : PoolState α} (hinv : PoolInv ok K videos s)
    (hstep : PoolStep ok s s') : PoolInv ok K videos s' := by
  obtain ⟨hsum, hres, herr, hbusy, hcard⟩ := hinv
  cases hstep with
  | finish v hv =>
    have hcons : v ::ₘ s.inflight.erase v = s.inflight := Multiset.cons_erase hv
    have hcard1 : 1 ≤ Multiset.card s.inflight :=
      Multiset.card_pos_iff_exists_mem.mpr ⟨v, hv⟩
    have hcardE : Multiset.card (s.inflight.erase v) =
        Multiset.card s.inflight - 1 := Multiset.card_erase_of_mem hv
    refine ⟨?_, ?_, ?_, ?_, ?_⟩
    · simp only [finishVideo]
      rw [← hsum]
      by_cases hok : ok v = true
      · rw [if_pos hok, if_pos hok,
          show ((s.results ++ [v] : List α) : Multiset α) =
            (s.results : Multiset α) + {v} by
              rw [← Multiset.coe_singleton, Multiset.coe_add]]
        cases hq : s.queue with
        | nil =>
          simp only [List.tail_nil, Multiset.coe_nil, zero_add]
          conv_rhs => rw [← hcons]
          simp only [← Multiset.singleton_add]
          abel
        | cons w rest =>
          simp only [List.tail_cons]
          rw [← Multiset.cons_coe]
          conv_rhs => rw [← hcons]
          simp only [← Multiset.singleton_add]
          abel
      · rw [if_neg hok, if_neg hok,
          show ((s.errors ++ [v] : List α) : Multiset α) =
            (s.errors : Multiset α) + {v} by
              rw [← Multiset.coe_singleton, Multiset.coe_add]]
        cases hq : s.queue with
        | nil =>
          simp only [List.tail_nil, Multiset.coe_nil, zero_add]
          conv_rhs => rw [← hcons]
          simp only [← Multiset.singleton_add]
          abel
        | cons w rest =>
          simp only [List.tail_cons]
          rw [← Multiset.cons_coe]
          conv_rhs => rw [← hcons]
          simp only [← Multiset.singleton_add]
          abel
    · intro x hx
      simp only [finishVideo] at hx
      by_cases hok : ok v = true
      · rw [if_pos hok] at hx
        rcases List.mem_append.mp hx with h | h
        · exact hres x h
        · simp only [List.mem_singleton] at h
          exact h ▸ hok
      · rw [if_neg hok] at hx
        exact hres x hx
    · intro x hx
      simp only [finishVideo] at hx
      by_cases hok : ok v = true
      · rw [if_pos hok] at hx
        exact herr x hx
      · rw [if_neg hok] at hx
        rcases List.mem_append.mp hx with h | h
        · exact herr x h
        · simp only [List.mem_singleton] at h
          subst h
          exact eq_false_of_ne_true hok
    · intro hq
      simp only [finishVideo] at hq ⊢
      cases hqs : s.queue with
      | nil => exact absurd (by simp [hqs]) hq
      | cons w rest => simp only [hqs]; exact Multiset.cons_ne_zero
    · simp only [finishVideo]
      cases hqs : s.queue with
      | nil =>
        rw [hcardE]
        omega
      | cons w rest =>
        rw [Multiset.card_cons, hcardE]
        omega

theorem poolInv_reachable [DecidableEq α] {ok : α → Bool} {K : Nat}
    {videos : List α} {s : PoolState α} (hK : 1 ≤ K)
    (hreach : PoolReachable ok K videos s) : PoolInv ok K videos s := by
  induction hreach with
  | refl => exact poolInv_start ok videos hK
  | tail _ hstep ih => exact poolInv_step ih hstep

/-! ## Helper lemmas: batching and re-interleaving -/

theorem chunkAux_nil (B : Nat) : ∀ fuel, chunkAux B fuel [] = [] := by
  intro fuel
  cases fuel <;> rfl

theorem chunkList_single (B : Nat) (l : List String) (h1 : l ≠ [])
    (h2 : l.length ≤ B) : chunkList B l = [l] := by
  unfold chunkList
  cases hl : l with
  | nil => exact absurd hl h1
  | cons x xs =>
    subst hl
    show (x :: xs).take B :: chunkAux B xs.length ((x :: xs).drop B) = [x :: xs]
    rw [List.take_of_length_le h2, List.drop_eq_nil_of_le h2, chunkAux_nil]

theorem runBatches_ok_mem (tr : List String → Except String (List String)) :
    ∀ bs ts, runBatches tr bs = .ok ts → ∀ b ∈ bs, ∃ us, tr b = .ok us := by
  intro bs
  induction bs with
  | nil => intro ts _ b hb; exact absurd hb (List.not_mem_nil b)
  | cons c cs ih =>
    intro ts h b hb
    unfold runBatches at h
    cases hc : tr c with
    | error e => rw [hc] at h; exact absurd h (by simp)
    | ok us =>
      rw [hc] at h
      cases hcs : runBatches tr cs with
      | error e => rw [hcs] at h; exact absurd h (by simp)
      | ok rest =>
        rcases List.mem_cons.mp hb with hb1 | hb1
        · exact ⟨us, hb1 ▸ hc⟩
        · exact ih rest hcs b hb1

theorem fill_spec : ∀ (ms : List (String ⊕ String)) (ts : List String),
    ts.length = (subtitleTexts ms).length →
    (fillTranslations ms ts).length = ms.length
    ∧ (∀ p ∈ List.zip ms (fillTranslations ms ts), ∀ l, p.1 = Sum.inl l → p.2 = l)
    ∧ (List.zip ms (fillTranslations ms ts)).filterMap
        (fun p => match p.1 with | .inl _ => none | .inr _ => some p.2) = ts := by
  intro ms
  induction ms with
  | nil =>
    intro ts h
    simp only [subtitleTexts, List.filterMap_nil, List.length_nil] at h
    rw [List.length_eq_zero.mp h]
    exact ⟨rfl, by intro p hp; exact absurd hp (List.not_mem_nil p), rfl⟩
  | cons m ms ih =>
    intro ts h
    cases m with
    | inl l =>
      have h' : ts.length = (subtitleTexts ms).length := by
        simpa [subtitleTexts, List.filterMap_cons] using h
      obtain ⟨hlen, hinl, hproj⟩ := ih ts h'
      have hfill : fillTranslations (.inl l :: ms) ts = l :: fillTranslations ms ts := rfl
      refine ⟨?_, ?_, ?_⟩
      · rw [hfill, List.length_cons, List.length_cons, hlen]
      · intro p hp
        rw [hfill, List.zip_cons_cons] at hp
        rcases List.mem_cons.mp hp with h1 | h1
        · subst h1
          intro l' hl'
          injection hl' with he
          try exact he
        · exact hinl p h1
      · rw [hfill, List.zip_cons_cons, List.filterMap_cons]
        exact hproj
    | inr t =>
      have h' : ts.length = (subtitleTexts ms).length + 1 := by
        simpa [subtitleTexts, List.filterMap_cons] using h
      cases ts with
      | nil => exact absurd h' (by simp)
      | cons u ts' =>
        have h'' : ts'.length = (subtitleTexts ms).length := by
          simpa using h'
        obtain ⟨hlen, hinl, hproj⟩ := ih ts' h''
        have hfill : fillTranslations (.inr t :: ms) (u :: ts') =
            u :: fillTranslations ms ts' := rfl
        refine ⟨?_, ?_, ?_⟩
        · rw [hfill, List.length_cons, List.length_cons, hlen]
        · intro p hp
          rw [hfill, List.zip_cons_cons] at hp
          rcases List.mem_cons.mp hp with h1 | h1
          · subst h1
            intro l' hl'
            simp at hl'
          · exact hinl p h1
        · rw [hfill, List.zip_cons_cons, List.filterMap_cons]
          simp only [hproj]

theorem translateVTTFastLines_ok (tr : List String → Except String (List String))
    (B : Nat) (L : List String) (out : List String) (calls : Nat)
    (h : translateVTTFastLines tr B L = .ok (out, calls)) :
    ∃ translations,
      runBatches tr (chunkList B (subtitleTexts (markLines L))) = .ok translations
      ∧ translations.length = (subtitleTexts (markLines L)).length
      ∧ out = fillTranslations (markLines L) translations
      ∧ calls = (chunkList B (subtitleTexts (markLines L))).length := by
  unfold translateVTTFastLines at h
  by_cases hempty : (subtitleTexts (markLines L)).isEmpty
  · rw [if_pos hempty] at h
    exact absurd h (by simp)
  · rw [if_neg hempty] at h
    cases hrb : runBatches tr (chunkList B (subtitleTexts (markLines L))) with
    | error e => rw [hrb] at h; exact absurd h (by simp)
    | ok translations =>
      rw [hrb] at h
      replace h :
          (if translations.length ≠ (subtitleTexts (markLines L)).length then
            (Except.error "Translation count mismatch" : Except String (List String × Nat))
          else if outputHasPlaceholder
              (joinLines (fillTranslations (markLines L) translations)) then
            Except.error "Translation contains placeholder text - not a real translation"
          else Except.ok (fillTranslations (markLines L) translations,
            (chunkList B (subtitleTexts (markLines L))).length)) =
          Except.ok (out, calls) := h
      by_cases hcount : translations.length ≠ (subtitleTexts (markLines L)).length
      · rw [if_pos hcount] at h
        exact absurd h (by simp)
      · rw [if_neg hcount] at h
        by_cases hph :
            outputHasPlaceholder (joinLines (fillTranslations (markLines L) translations))
        · rw [if_pos hph] at h
          exact absurd h (by simp)
        · rw [if_neg hph] at h
          refine ⟨translations, rfl, not_not.mp hcount, ?_, ?_⟩
          · injection h with h'
            injection h' with h1 h2
            exact h1.symm
          · injection h with h'
            injection h' with h1 h2
            exact h2.symm

/-! ## Helper lemmas: the retry loop -/

theorem retryAux_invocations_le {α : Type} (wait : Nat → Nat) (captionOp : Bool)
    (m : Nat) (op : Nat → Except JsError α) :
    ∀ fuel attempt calls ws last,
      (retryAux wait captionOp m op fuel attempt calls ws last).invocations ≤
        calls + fuel := by
  intro fuel
  induction fuel with
  | zero =>
    intro attempt calls ws last
    simp [retryAux]
  | succ f ih =>
    intro attempt calls ws last
    simp only [retryAux]
    cases hop : op calls with
    | ok a => simp only []; omega
    | error e =>
      simp only []
      by_cases h1 : (isAuthError e && captionOp) = true
      · rw [if_pos h1]
        exact le_trans (ih (attempt + 1) (calls + 1) ws (some e)) (by omega)
      · rw [if_neg h1]
        by_cases h2 : (isRateLimit e && decide (attempt < m)) = true
        · rw [if_pos h2]
          exact le_trans (ih (attempt + 1) (calls + 1) (ws ++ [wait attempt])
            (some e)) (by omega)
        · rw [if_neg h2]
          simp only []
          omega

theorem retryAux_rateLimited {α : Type} (wait : Nat → Nat) (m : Nat) (e : JsError)
    (hrl : isRateLimit e = true) (hauth : isAuthError e = false) :
    ∀ fuel attempt calls ws last, attempt + fuel = m + 1 → 1 ≤ fuel →
      retryAux wait false m (fun _ => (Except.error e : Except JsError α))
          fuel attempt calls ws last =
        ⟨.failure e, calls + fuel,
          ws ++ (List.range (fuel - 1)).map (fun i => wait (attempt + i))⟩ := by
  intro fuel
  induction fuel with
  | zero =>
    intro attempt calls ws last _ h1
    exact absurd h1 (by omega)
  | succ f ih =>
    intro attempt calls ws last hsum _
    simp only [retryAux, hauth, Bool.false_and, Bool.false_eq_true, if_false]
    cases f with
    | zero =>
      have ham : attempt = m := by omega
      subst ham
      simp [hrl]
    | succ f' =>
      have hlt : attempt < m := by omega
      have hc : (isRateLimit e && decide (attempt < m)) = true := by
        simp [hrl, hlt]
      rw [if_pos hc,
        ih (attempt + 1) (calls + 1) (ws ++ [wait attempt]) (some e)
          (by omega) (by omega)]
      have htail : (List.range f').map (fun i => wait (attempt + 1 + i)) =
          (List.range f').map ((fun i => wait (attempt + i)) ∘ Nat.succ) := by
        refine List.map_congr_left ?_
        intro i _
        show wait (attempt + 1 + i) = wait (attempt + Nat.succ i)
        exact congrArg wait (by omega)
      have hwaits : (ws ++ [wait attempt]) ++
          (List.range (f' + 1 - 1)).map (fun i => wait (attempt + 1 + i)) =
          ws ++ (List.range (f' + 1)).map (fun i => wait (attempt + i)) := by
        rw [List.append_assoc]
        refine congrArg (fun x => ws ++ x) ?_
        rw [Nat.add_sub_cancel, htail, List.range_succ_eq_map, List.map_cons,
          List.map_map, List.singleton_append, Nat.add_zero]
      rw [hwaits]
      refine congrArg (fun c => RetryTrace.mk (.failure e) c
        (ws ++ (List.range (f' + 1)).map (fun i => wait (attempt + i)))) ?_
      omega

/-! ## Claim theorems -/

/-- Claim C10: for every input text, if the underlying translation API
call throws, LLMTranslator.translateText catches the error and returns
the source text unchanged, making a failed translation indistinguishable
at this interface from a unit legitimately left identical to its
source. -/
theorem translateText_error_returns_source (text errMsg : String) :
    translateText text (.error errMsg) = text
    ∧ translateText text (.error errMsg) = translateText text (.ok text) := by
  unfold translateText
  constructor
  · split <;> rfl
  · split <;> rfl

/-- Claim C6 (amended): an item accepted by the part_003 verification
gate has, for each pipeline language, an artifact file that exists, is
at least 100 bytes, contains no placeholder marker, and has a
substantive subtitle line; the verifyVideoProcessing of
fast-processor.js, in contrast, guarantees only that each artifact file
exists, inspecting no content. -/
theorem verification_gates_amended (files filesF : String → Option String)
    (lang : String) (hlang : lang ∈ languages) :
    (verifyVideoProcessing files = true →
      ∃ content, files lang = some content
        ∧ hasPlaceholders lang content = false
        ∧ 100 ≤ fileSize content
        ∧ hasSubstantialContent content = true)
    ∧ (verifyVideoProcessingFast filesF = true → (filesF lang).isSome = true) := by
  constructor
  · intro hver
    have h : artifactValid lang (files lang) = true :=
      (List.all_eq_true.mp hver) lang hlang
    cases hf : files lang with
    | none =>
      rw [hf] at h
      exact absurd h (by simp [artifactValid])
    | some c =>
      rw [hf] at h
      unfold artifactValid at h
      simp only [Bool.and_eq_true, Bool.not_eq_true'] at h
      obtain ⟨⟨hph, hsmall⟩, hsub⟩ := h
      refine ⟨c, rfl, hph, ?_, hsub⟩
      unfold isContentTooSmall at hsmall
      have := of_decide_eq_false hsmall
      omega
  · intro hver
    exact (List.all_eq_true.mp hver) lang hlang

/-- Concrete gates: the strict gate accepts the valid sample artifact
with all checks satisfied, while the lenient gate accepts the
placeholder directory because its files exist. -/
theorem verification_gates_amended_witness :
    sampleFiles "ar" = some sampleVtt
    ∧ hasPlaceholders "ar" sampleVtt = false
    ∧ 100 ≤ fileSize sampleVtt
    ∧ hasSubstantialContent sampleVtt = true
    ∧ (lenientFiles "ar").isSome = true := by
  have h := verification_gates_amended sampleFiles lenientFiles "ar" (by decide)
  obtain ⟨c, hc, h1, h2, h3⟩ := h.1 rfl
  have hcs : c = sampleVtt := by
    have h' : some c = some sampleVtt := hc.symm.trans rfl
    injection h'
  subst hcs
  exact ⟨hc, h1, h2, h3, h.2 rfl⟩

/-- Claim C6 counterexample: the lenient pipeline of fast-processor.js
writes artifacts padded with tagged placeholders, and the directory
holding them is accepted by the fast verification gate although every
artifact carries the AR placeholder marker and is below the 100 byte
threshold. -/
theorem fast_gate_accepts_placeholders :
    verifyVideoProcessingFast lenientFiles = true
    ∧ hasPlaceholders "ar" lenientArVtt = true
    ∧ fileSize lenientArVtt < 100 := by
  refine ⟨rfl, rfl, by decide⟩

/-- Claim C7 (amended): an item whose full artifact set exists and
passes verification is skipped; the skip performs no network and no
subprocess call when caption upload is disabled, and exactly the
advisory catalog captions read when caption upload is enabled. -/
theorem skip_path_calls (files : String → Option String)
    (hall : isVideoAlreadyProcessed files = true)
    (hver : verifyVideoProcessing files = true) :
    processVideoFastSkipCheck true false files = some ([], [])
    ∧ processVideoFastSkipCheck true true files = some ([NetCall.catalogGet], []) := by
  unfold processVideoFastSkipCheck verifyNetCalls
  rw [hall, hver]
  exact ⟨rfl, rfl⟩

/-- Concrete skip run with caption upload disabled: zero calls. -/
theorem skip_path_calls_witness :
    processVideoFastSkipCheck true false sampleFiles = some ([], []) :=
  (skip_path_calls sampleFiles rfl rfl).1

/-- Claim C7 counterexample: with caption upload enabled, the skip path
of a fully processed item still issues a catalog captions read, so the
claimed zero-network-call property fails as stated. -/
theorem skip_path_catalog_call :
    processVideoFastSkipCheck true true sampleFiles = some ([NetCall.catalogGet], [])
    ∧ ([NetCall.catalogGet] : List NetCall) ≠ ([] : List NetCall) :=
  ⟨rfl, by decide⟩

/-- Claim C5: the controller comment promises that an auth-expired (401)
failure re-authenticates and retries without consuming retry budget, but
the continue statement advances the for-loop attempt counter: five
consecutive 401 failures on a caption operation exhaust a budget of five
and propagate the last 401 after exactly five invocations. -/
theorem auth_retry_consumes_budget :
    retryWithBackoff waitTimeP3 true
        (fun _ => (Except.error ⟨false, some 401, 7⟩ : Except JsError Unit)) 5 =
      ⟨.failure ⟨false, some 401, 7⟩, 5, []⟩ := rfl

/-- Claim C4 (amended): the part_003 backoff doubles per attempt up to
the 60 second cap while the fast-processor backoff grows fourfold per
attempt up to its 300 second cap; in both loops every rate-limited
attempt consumes exactly one budget unit, the waits follow the schedule,
the last error is propagated, and the operation is invoked at most
maxRetries times. -/
theorem retry_backoff_schedule (a m : Nat) (e : JsError)
    (op : Nat → Except JsError Unit) (ha : 1 ≤ a)
    (hrl : isRateLimit e = true) (hauth : isAuthError e = false) :
    waitTimeP3 (a + 1) = min (2 * waitTimeP3 a) 60
    ∧ waitTimeFast (a + 1) = min (4 * waitTimeFast a) 300
    ∧ (retryWithBackoff waitTimeP3 false
        (fun _ => (Except.error e : Except JsError Unit)) m).invocations = m
    ∧ (retryWithBackoff waitTimeP3 false
        (fun _ => (Except.error e : Except JsError Unit)) m).waits =
        (List.range (m - 1)).map (fun i => waitTimeP3 (1 + i))
    ∧ (1 ≤ m → (retryWithBackoff waitTimeP3 false
        (fun _ => (Except.error e : Except JsError Unit)) m).result = .failure e)
    ∧ (retryWithBackoff waitTimeP3 false op m).invocations ≤ m := by
  refine ⟨?_, ?_, ?_, ?_, ?_, ?_⟩
  · unfold waitTimeP3
    rw [pow_succ]
    generalize (2 : Nat) ^ a = x
    omega
  · unfold waitTimeFast
    have h2 : a - 1 + 1 = a := by omega
    rw [Nat.add_sub_cancel,
      show (4 : Nat) ^ a = 4 ^ (a - 1) * 4 by rw [← pow_succ, h2]]
    generalize (4 : Nat) ^ (a - 1) = y
    omega
  · cases m with
    | zero => rfl
    | succ mm =>
      unfold retryWithBackoff
      rw [retryAux_rateLimited (α := Unit) waitTimeP3 (mm + 1) e hrl hauth
        (mm + 1) 1 0 [] none (by omega) (by omega)]
      simp
  · cases m with
    | zero => rfl
    | succ mm =>
      unfold retryWithBackoff
      rw [retryAux_rateLimited (α := Unit) waitTimeP3 (mm + 1) e hrl hauth
        (mm + 1) 1 0 [] none (by omega) (by omega)]
      simp
  · intro hm
    cases m with
    | zero => exact absurd hm (by omega)
    | succ mm =>
      unfold retryWithBackoff
      rw [retryAux_rateLimited (α := Unit) waitTimeP3 (mm + 1) e hrl hauth
        (mm + 1) 1 0 [] none (by omega) (by omega)]
  · exact le_trans
      (retryAux_invocations_le waitTimeP3 false m op m 1 0 [] none) (by omega)

/-- Concrete run of the backoff schedule: doubling at the first step and
full budget consumption over five rate-limited attempts. -/
theorem retry_backoff_schedule_witness :
    waitTimeP3 2 = min (2 * waitTimeP3 1) 60
    ∧ (retryWithBackoff waitTimeP3 false
        (fun _ => (Except.error ⟨true, none, 0⟩ : Except JsError Unit)) 5).invocations = 5 := by
  have h := retry_backoff_schedule 1 5 ⟨true, none, 0⟩
    (fun _ => (Except.error ⟨true, none, 0⟩ : Except JsError Unit))
    (by omega) rfl rfl
  exact ⟨h.1, h.2.2.1⟩

/-- Claim C4 counterexample: the fast-processor delays are 30 s then
120 s; doubling the first delay under the 300 s cap would give 60 s, and
120 is below the cap, so the delay does not double per attempt there. -/
theorem fast_backoff_not_doubling :
    waitTimeFast 1 = 30 ∧ waitTimeFast 2 = 120 ∧ waitTimeFast 2 < 300
    ∧ min (2 * waitTimeFast 1) 300 = 60 ∧ (120 : Nat) ≠ 60 := by
  refine ⟨by decide, by decide, by decide, by decide, by decide⟩

/-- Claim C3: at every reachable pool state, over every interleaving of
completions, the number of in-flight items never exceeds the configured
worker count K. -/
theorem pool_inflight_bounded {α : Type} [DecidableEq α]
    (ok : α → Bool) (K : Nat) (videos : List α) (s : PoolState α)
    (hK : 1 ≤ K) (hreach : PoolReachable ok K videos s) :
    Multiset.card s.inflight ≤ K :=
  (poolInv_reachable hK hreach).2.2.2.2

/-- Concrete pool state: three queued items on two lanes start with at
most two in flight. -/
theorem pool_inflight_bounded_witness :
    Multiset.card (startPool 2 ([5, 6, 7] : List Nat)).inflight ≤ 2 :=
  pool_inflight_bounded (fun _ => true) 2 [5, 6, 7] (startPool 2 [5, 6, 7])
    (by omega) Relation.ReflTransGen.refl

/-- Claim C2: processVideosConcurrently promises in its own comment to
wait for all videos to complete, but the await captures only the
initial lane promises, and the finally-block refill promise is neither
awaited nor returned.  With one lane and two videos the state after the
first item finishes is reachable; every initial promise has resolved
there, so the function returns, yet the second video is still in flight
and the returned aggregate misses its entry. -/
theorem promise_all_resolves_before_queue_drains :
    JsPoolReachable (fun v : Nat => decide (v = 20)) 1 [10, 20]
      (finishVideoJs (fun v : Nat => decide (v = 20)) (startPoolJs 1 [10, 20])
        (10, true))
    ∧ AllInitialResolved
        (finishVideoJs (fun v : Nat => decide (v = 20)) (startPoolJs 1 [10, 20])
          (10, true))
    ∧ (20, false) ∈
        (finishVideoJs (fun v : Nat => decide (v = 20)) (startPoolJs 1 [10, 20])
          (10, true)).inflight
    ∧ ((finishVideoJs (fun v : Nat => decide (v = 20)) (startPoolJs 1 [10, 20])
          (10, true)).results : Multiset Nat) +
        ((finishVideoJs (fun v : Nat => decide (v = 20)) (startPoolJs 1 [10, 20])
          (10, true)).errors : Multiset Nat) ≠
        (([10, 20] : List Nat) : Multiset Nat) := by
  refine ⟨?_, by decide, by decide, by decide⟩
  exact Relation.ReflTransGen.tail Relation.ReflTransGen.refl
    (JsPoolStep.finish (startPoolJs 1 [10, 20]) (10, true) (by decide))

/-- Claim C8 (amended): on a document whose lines classify to three text
units and two non-text lines with batch size five, a successful
translation stage makes exactly one batch call, keeps the line count,
carries every non-text line through trimmed of surrounding whitespace,
and places the returned translations in order at the text positions. -/
theorem scenario_A_single_batch (L : List String)
    (tr : List String → Except String (List String)) (out : List String) (calls : Nat)
    (h3 : (subtitleTexts (markLines L)).length = 3) (_h5 : L.length = 5)
    (hok : translateVTTFastLines tr 5 L = .ok (out, calls)) :
    calls = 1
    ∧ out.length = L.length
    ∧ (∀ p ∈ List.zip L out, isNonTextLine (jsTrim p.1) = true → p.2 = jsTrim p.1)
    ∧ ∃ ts, tr (subtitleTexts (markLines L)) = .ok ts ∧ ts.length = 3
        ∧ (List.zip (markLines L) out).filterMap
            (fun p => match p.1 with | .inl _ => none | .inr _ => some p.2) = ts := by
  obtain ⟨translations, hrb, hlen, hout, hcalls⟩ :=
    translateVTTFastLines_ok tr 5 L out calls hok
  have hne : subtitleTexts (markLines L) ≠ [] := by
    intro hnil
    rw [hnil] at h3
    simp at h3
  have hchunk : chunkList 5 (subtitleTexts (markLines L)) =
      [subtitleTexts (markLines L)] :=
    chunkList_single 5 _ hne (by omega)
  rw [hchunk] at hrb hcalls
  have htr : tr (subtitleTexts (markLines L)) = .ok translations := by
    unfold runBatches at hrb
    cases htr : tr (subtitleTexts (markLines L)) with
    | error e =>
      rw [htr] at hrb
      exact absurd hrb (by simp)
    | ok us =>
      rw [htr] at hrb
      have hrb' : (Except.ok (us ++ []) : Except String (List String)) =
          .ok translations := hrb
      injection hrb' with h'
      rw [List.append_nil] at h'
      rw [h']
  obtain ⟨hfl, hinl, hproj⟩ := fill_spec (markLines L) translations (by rw [hlen])
  refine ⟨by rw [hcalls]; rfl, ?_, ?_, translations, htr, by rw [hlen, h3], ?_⟩
  · rw [hout, hfl]
    simp [markLines]
  · intro p hp hnt
    have hcl : classifyLine p.1 = Sum.inl (jsTrim p.1) := by
      unfold classifyLine
      rw [if_pos hnt]
    have hmem : (classifyLine p.1, p.2) ∈ List.zip (markLines L) out := by
      rw [markLines, List.zip_map_left]
      exact List.mem_map.mpr ⟨p, hp, rfl⟩
    rw [hout] at hmem
    exact hinl (classifyLine p.1, p.2) hmem (jsTrim p.1) hcl
  · rw [hout]
    exact hproj

/-- Concrete scenario A run: three text lines and two non-text lines,
batch size five, one batch call, positions preserved. -/
theorem scenario_A_single_batch_witness :
    (["WEBVTT", "00:00:01.000 --> 00:00:02.000", "Salut", "Mon ami", "Bonjour"] :
      List String).length =
      (["WEBVTT", "00:00:01.000 --> 00:00:02.000", "Hi there", "My friend",
        "Good day"] : List String).length
    ∧ (1 : Nat) = 1 := by
  have h := scenario_A_single_batch
    ["WEBVTT", "00:00:01.000 --> 00:00:02.000", "Hi there", "My friend", "Good day"]
    (fun _ => .ok ["Salut", "Mon ami", "Bonjour"])
    ["WEBVTT", "00:00:01.000 --> 00:00:02.000", "Salut", "Mon ami", "Bonjour"] 1
    rfl rfl rfl
  exact ⟨h.2.1, h.1⟩

/-- Claim C8 counterexample: a header line with a trailing space is a
non-text line, yet the reconstructed document carries it trimmed, not
unchanged: the stage maps the line WEBVTT-space to WEBVTT. -/
theorem scenario_A_trims_nontext :
    translateVTTFastStrict (fun _ => "Bonjour\nMonde\nAmi") "FR" 5 scenarioDocLines =
      .ok (["WEBVTT", "00:00:01.000 --> 00:00:02.000", "Bonjour", "Monde", "Ami"], 1)
    ∧ scenarioDocLines.head? = some "WEBVTT "
    ∧ (["WEBVTT", "00:00:01.000 --> 00:00:02.000", "Bonjour", "Monde", "Ami"] :
        List String).head? = some "WEBVTT"
    ∧ ("WEBVTT " : String) ≠ "WEBVTT" := by
  refine ⟨rfl, rfl, rfl, by decide⟩

/-- Claim C1 (amended): a service response parsing to fewer lines than
the submitted batch makes the strict batchTranslateSubtitles raise a
count-mismatch error with no padding; any stage whose chunked texts
contain such a batch fails as a whole; when the failing language has no
pre-existing artifact on disk, the attempt fails verification, so the
item is not marked successful on that attempt and the item-level loop
retries it; a first-attempt failure is never reported as a
first-attempt success. -/
theorem strict_shortfall_no_success
    (subs : List String) (targetUpper : String) (respond : List String → String)
    (B : Nat) (L : List String) (files0 : String → Option String)
    (origLang origContent : String) (trOut : String → Except String String)
    (hshort : (parseTranslations (respond subs) subs.length).length < subs.length) :
    batchTranslateSubtitles subs targetUpper (respond subs) =
      .error "Translation incomplete"
    ∧ (subs ∈ chunkList B (subtitleTexts (markLines L)) →
        ∃ msg, translateVTTFastStrict respond targetUpper B L = .error msg)
    ∧ (∀ lang errMsg, lang ∈ targetLanguages origLang → trOut lang = .error errMsg →
        files0 lang = none →
        attemptSucceeds files0 origLang origContent trOut = false)
    ∧ (∀ attemptOk : Nat → Bool, attemptOk 1 = false →
        processVideoFastLoop attemptOk ≠ some 1
        ∧ (attemptOk 2 = true → processVideoFastLoop attemptOk = some 2)) := by
  have hbatch : batchTranslateSubtitles subs targetUpper (respond subs) =
      .error "Translation incomplete" := by
    unfold batchTranslateSubtitles
    rw [if_pos hshort]
  refine ⟨hbatch, ?_, ?_, ?_⟩
  · intro hmem
    unfold translateVTTFastStrict
    cases hres : translateVTTFastLines
        (fun batch => batchTranslateSubtitles batch targetUpper (respond batch))
        B L with
    | error msg => exact ⟨msg, rfl⟩
    | ok pr =>
      exfalso
      obtain ⟨translations, hrb, -, -, -⟩ :=
        translateVTTFastLines_ok _ B L pr.1 pr.2 (by rw [hres])
      obtain ⟨us, hus⟩ := runBatches_ok_mem _ _ _ hrb subs hmem
      rw [hbatch] at hus
      exact absurd hus (by simp)
  · intro lang errMsg hmemT htr hf0
    cases hv : attemptSucceeds files0 origLang origContent trOut with
    | false => rfl
    | true =>
      exfalso
      have hlang : lang ∈ languages := List.mem_of_mem_filter hmemT
      have hne2 : lang ≠ origLang := by
        have hd := List.of_mem_filter hmemT
        simpa using hd
      have hval : artifactValid lang
          (attemptFiles files0 origLang origContent trOut lang) = true :=
        (List.all_eq_true.mp hv) lang hlang
      unfold attemptFiles at hval
      rw [if_neg hne2, if_pos hmemT, htr, hf0] at hval
      simp [artifactValid] at hval
  · intro attemptOk h1
    constructor
    · unfold processVideoFastLoop processLoopAux
      cases h2 : attemptOk 2 with
      | true => simp [processLoopAux, h1, h2]
      | false =>
        cases h3 : attemptOk 3 with
        | true => simp [processLoopAux, h1, h2, h3]
        | false => simp [processLoopAux, h1, h2, h3]
    · intro h2
      unfold processVideoFastLoop processLoopAux
      simp [processLoopAux, h1, h2]

/-- Concrete shortfall: a two-line response against a three-line batch
raises the count-mismatch error. -/
theorem strict_shortfall_no_success_witness :
    batchTranslateSubtitles ["Hello", "World", "Friend"] "AR" "Marhaba\nAlam" =
      Except.error "Translation incomplete" := by
  have h := strict_shortfall_no_success ["Hello", "World", "Friend"] "AR"
    (fun _ => "Marhaba\nAlam") 15 staleDocLines staleFiles "en" sampleVtt staleTrOut
    (by decide)
  exact h.1

/-- Claim C1 counterexample: a stale valid Arabic artifact from an
earlier run masks a count-mismatch failure of the Arabic batch, so the
attempt passes verification and the item is marked successful on the
very attempt whose batch failed, with no item-level retry. -/
theorem stale_artifact_masks_batch_failure :
    staleTrOut "ar" = .error "Translation incomplete"
    ∧ ("ar" ∈ targetLanguages "en")
    ∧ staleFiles "ar" = some sampleVtt
    ∧ attemptSucceeds staleFiles "en" sampleVtt staleTrOut = true
    ∧ processVideoFastLoop
        (fun _ => attemptSucceeds staleFiles "en" sampleVtt staleTrOut) = some 1 := by
  refine ⟨rfl, by decide, rfl, rfl, rfl⟩

/-- Claim C9 (amended): the batch transcription path runs the engine
with an explicit 1800 second timeout and records an overrun as that
item failing, while the transcribeWithWhisper path of part_003 passes
no timeout at all. -/
theorem whisper_timeout_enforced (wp mp ap vp lang op2 : String)
    (runtime : Option Nat) (exitOk : Bool) (vtt : Option String)
    (htime : runExec (individualWhisperInvocation wp mp ap vp) runtime exitOk =
      .timedOut) :
    (individualWhisperInvocation wp mp ap vp).timeoutMs = some 1800000
    ∧ processBatchItemSuccess (individualWhisperInvocation wp mp ap vp)
        runtime exitOk vtt = false
    ∧ (part3WhisperInvocation wp mp ap lang op2).timeoutMs = none := by
  refine ⟨rfl, ?_, rfl⟩
  unfold processBatchItemSuccess
  rw [htime]

/-- Concrete overrun: an engine run one millisecond past the timeout is
recorded as a failure. -/
theorem whisper_timeout_enforced_witness :
    processBatchItemSuccess (individualWhisperInvocation "w" "m" "a" "v")
      (some 1800001) true (some "WEBVTT\ntext") = false :=
  (whisper_timeout_enforced "w" "m" "a" "v" "auto" "o" (some 1800001) true
    (some "WEBVTT\ntext") rfl).2.1

/-- Claim C9 counterexample: the part_003 whisper invocation carries no
timeout, and with a hung engine the call blocks forever instead of
failing. -/
theorem whisper_invocation_without_timeout :
    (part3WhisperInvocation "./whisper.cpp/main"
      "./whisper.cpp/models/ggml-base.bin" "./temp/clip_speech.wav" "auto"
      "./temp/clip_speech").timeoutMs = none
    ∧ runExec (part3WhisperInvocation "./whisper.cpp/main"
        "./whisper.cpp/models/ggml-base.bin" "./temp/clip_speech.wav" "auto"
        "./temp/clip_speech") none true = .blocked :=
  ⟨rfl, rfl⟩

end VideoToVTT

